import Mathlib

set_option autoImplicit false

/-
Shallow embedding of the "mikrosevice" repository: an API gateway, a user
service (Express + pg), a product service (Go + Gin + database/sql) and an
order service (Express + pg + axios), each a CRUD layer over its own
relational store.

Conventions of the embedding:
* SQL DECIMAL(10,2) / Go float64 / JS number amounts are modelled as exact
  integers (`Int`); none of the verified claims depends on decimal rounding.
* Timestamps (NOW(), CURRENT_TIMESTAMP) are modelled as an abstract `Nat`
  clock value passed to each handler.
* A table is a list of rows; SERIAL primary keys are modelled by an explicit
  next-id counter (or the list length where the service never exposes it).
* Fallible collaborator calls (axios GET) return an explicit result
  (`ok` / 404 `notFound` / any other failure `errored`).
-/

namespace ProductSvc

/-- A row of the `products` table (product service schema): id SERIAL,
name, description, price DECIMAL CHECK (price > 0), stock INTEGER
CHECK (stock >= 0), category, created_at, updated_at. -/
structure Product where
  id : Nat
  name : String
  description : String
  price : Int
  stock : Int
  category : String
  createdAt : Nat
  updatedAt : Nat
deriving Repr, DecidableEq

/-- The storage-layer CHECK constraint `stock >= 0` of the products table. -/
def stockCheck (p : Product) : Bool :=
  decide (0 ≤ p.stock)

/-- The storage-layer CHECK constraint `price > 0` of the products table. -/
def priceCheck (p : Product) : Bool :=
  decide (0 < p.price)

/-- Go struct `CreateProductRequest` with Gin binding tags
`Name/Description/Category: required`, `Price: required,gt=0`,
`Stock: required,gte=0`. A field absent from the request JSON leaves the
Go zero value ("" for strings, 0 for numbers) in the struct. -/
structure CreateProductRequest where
  name : String := ""
  description : String := ""
  price : Int := 0
  stock : Int := 0
  category : String := ""
deriving Repr, DecidableEq

/-- Gin / go-playground validator semantics of the binding tags on
`CreateProductRequest`: `required` fails when the field holds its zero
value (empty string, numeric 0), `gt=0` demands a positive number and
`gte=0` a non-negative one.  In particular `stock = 0` fails the
`required` tag even though it satisfies `gte=0`. -/
def bindCreateProduct (req : CreateProductRequest) : Bool :=
  (req.name ≠ "" : Bool) &&
  (req.description ≠ "" : Bool) &&
  (req.price ≠ 0 && decide (0 < req.price)) &&
  (req.stock ≠ 0 && decide (0 ≤ req.stock)) &&
  (req.category ≠ "" : Bool)

/-- Go struct `UpdateProductRequest` (no binding tags): every field left out
of the request JSON keeps its Go zero value. -/
structure UpdateProductRequest where
  name : String := ""
  description : String := ""
  price : Int := 0
  stock : Int := 0
  category : String := ""
deriving Repr, DecidableEq

/-- Responses of the product service handlers, keyed by the JSON bodies the
Go code writes. -/
inductive ProductResp where
  /-- 200 with the updated/fetched product. -/
  | ok (p : Product)
  /-- 201 "Product created successfully". -/
  | created (p : Product)
  /-- 400 with the Gin binding error text. -/
  | bindFailed
  /-- 400 "No fields to update". -/
  | noFieldsToUpdate
  /-- 404 "Product not found". -/
  | notFound
  /-- 200 "Product deleted successfully". -/
  | deleted
deriving Repr, DecidableEq

/-- HTTP status code attached to each `ProductResp`. -/
def ProductResp.status : ProductResp → Nat
  | .ok _ => 200
  | .created _ => 201
  | .bindFailed => 400
  | .noFieldsToUpdate => 400
  | .notFound => 404
  | .deleted => 200

/-- Go handler `createProduct`: bind the JSON (400 on binding failure), then
INSERT ... RETURNING.  The binding already implies the table CHECKs
(price > 0, stock >= 0), so the insert succeeds. -/
def createProduct (db : List Product) (req : CreateProductRequest)
    (nextId : Nat) (now : Nat) : ProductResp × List Product :=
  if bindCreateProduct req then
    let p : Product :=
      ⟨nextId, req.name, req.description, req.price, req.stock, req.category, now, now⟩
    (.created p, db ++ [p])
  else
    (.bindFailed, db)

/-- Go handler `getProduct`: SELECT ... WHERE id = $1; 404 on ErrNoRows.
The table is returned unchanged — the handler only reads. -/
def getProduct (db : List Product) (pid : Nat) : ProductResp × List Product :=
  match db.find? (fun p => p.id == pid) with
  | some p => (.ok p, db)
  | none => (.notFound, db)

/-- The dynamic SET-clause construction of Go handler `updateProduct`: a
field is included exactly under the source's presence test
(`req.Name != ""`, `req.Description != ""`, `req.Price > 0`,
`req.Stock >= 0`, `req.Category != ""`), and `updated_at = NOW()` is always
set.  Note the stock test is `>= 0`, which the Go zero value 0 of an
omitted field satisfies. -/
def applyUpdateReq (req : UpdateProductRequest) (now : Nat) (p : Product) : Product :=
  { p with
    name := if req.name ≠ "" then req.name else p.name
    description := if req.description ≠ "" then req.description else p.description
    price := if 0 < req.price then req.price else p.price
    stock := if 0 ≤ req.stock then req.stock else p.stock
    category := if req.category ≠ "" then req.category else p.category
    updatedAt := now }

/-- Whether Go handler `updateProduct` collects at least one SET clause
(otherwise it answers 400 "No fields to update"). -/
def hasUpdates (req : UpdateProductRequest) : Bool :=
  (req.name ≠ "" : Bool) || (req.description ≠ "" : Bool) ||
  decide (0 < req.price) || decide (0 ≤ req.stock) || (req.category ≠ "" : Bool)

/-- Go handler `updateProduct`: bind, build the dynamic UPDATE, 400 when no
field qualifies, UPDATE ... WHERE id = $n RETURNING, 404 on ErrNoRows. -/
def updateProduct (db : List Product) (pid : Nat) (req : UpdateProductRequest)
    (now : Nat) : ProductResp × List Product :=
  if hasUpdates req then
    let newDb := db.map (fun q => if q.id == pid then applyUpdateReq req now q else q)
    match newDb.find? (fun p => p.id == pid) with
    | some p' => (.ok p', newDb)
    | none => (.notFound, db)
  else
    (.noFieldsToUpdate, db)

/-- Go handler `deleteProduct`: DELETE ... WHERE id = $1, then 404 when
`RowsAffected() == 0`. -/
def deleteProduct (db : List Product) (pid : Nat) : ProductResp × List Product :=
  let remaining := db.filter (fun p => ¬ p.id == pid)
  if remaining.length == db.length then (.notFound, db)
  else (.deleted, remaining)

end ProductSvc

namespace OrderSvc

/-- Result of an outbound axios GET to a collaborator: 2xx with a decoded
body, an HTTP 404 response, or any other failure (network error, non-404
status) — the last is what the handler re-throws. -/
inductive Fetch (α : Type) where
  | ok (a : α)
  | notFound
  | errored
deriving Repr, DecidableEq

/-- The part of a user-service response body the order service reads. -/
structure UserInfo where
  name : String
deriving Repr, DecidableEq

/-- The part of a product-service response body the order service reads:
`product.name`, `product.price`, `product.stock`. -/
structure ProductInfo where
  name : String
  price : Int
  stock : Int
deriving Repr, DecidableEq

/-- The two collaborators consumed by the order service, as functions from
the id in the request path to the fetch outcome. -/
structure OrderEnv where
  users : Int → Fetch UserInfo
  products : Int → Fetch ProductInfo

/-- One element of the `items` array of a create-order payload. -/
structure OrderItemReq where
  productId : Int
  quantity : Int
deriving Repr, DecidableEq

/-- The create-order payload `{userId, items}`. -/
structure OrderPayload where
  userId : Int
  items : List OrderItemReq
deriving Repr, DecidableEq

/-- Joi `orderSchema`: userId a positive integer, items an array of at
least one `{productId, quantity}` pair of positive integers. -/
def validOrderPayload (b : OrderPayload) : Bool :=
  decide (0 < b.userId) &&
  decide (1 ≤ b.items.length) &&
  b.items.all (fun it => decide (0 < it.productId) && decide (0 < it.quantity))

/-- A row of the `orders` table: id SERIAL, user_id, total_amount DECIMAL
CHECK (total_amount > 0), status CHECK (status in the five allowed values),
created_at, updated_at. -/
structure OrderRow where
  id : Nat
  userId : Int
  totalAmount : Int
  status : String
  createdAt : Nat
  updatedAt : Nat
deriving Repr, DecidableEq

/-- A row of the `order_items` table: id SERIAL, order_id REFERENCES orders
ON DELETE CASCADE, product_id, quantity CHECK (quantity > 0), price DECIMAL
CHECK (price > 0), product_name. -/
structure ItemRow where
  id : Nat
  orderId : Nat
  productId : Int
  quantity : Int
  price : Int
  productName : String
deriving Repr, DecidableEq

/-- The order service's database: both tables plus the SERIAL counters. -/
structure OrderDB where
  orders : List OrderRow
  items : List ItemRow
  nextOrderId : Nat
  nextItemId : Nat
deriving Repr, DecidableEq

/-- The CHECK constraint on `orders.status` (also the Joi `valid(...)` list
of `updateOrderSchema`). -/
def statusAllowed (s : String) : Bool :=
  s == "pending" || s == "confirmed" || s == "shipped" || s == "delivered" || s == "cancelled"

/-- Observable side effects of one run of the create-order handler, in
program order: outbound HTTP calls and the statements on the pooled
database connection. -/
inductive Method where
  | GET
  | POST
  | PUT
  | DELETE
deriving Repr, DecidableEq

/-- Which collaborator an outbound call targets. -/
inductive Svc where
  | userSvc
  | productSvc
deriving Repr, DecidableEq

/-- One event of the create-order run: an outbound HTTP call
(method, service, id in the path) or a statement of the scoped
transaction. -/
inductive Event where
  | http (m : Method) (s : Svc) (id : Int)
  | txBegin
  | insOrder
  | insItem
  | txCommit
  | txRollback
deriving Repr, DecidableEq

/-- Whether an event is an outbound HTTP call. -/
def Event.isHttp : Event → Bool
  | .http _ _ _ => true
  | _ => false

/-- Whether an event is an outbound HTTP call that is not a GET (the only
kind that could mutate a collaborator's state). -/
def Event.isHttpWrite : Event → Bool
  | .http m _ _ => m ≠ .GET
  | _ => false

/-- Error bodies of the 400 responses of POST /api/orders, carrying exactly
the data interpolated into the JSON `error` string. -/
inductive OrderErr where
  /-- Joi validation failed (`error.details[0].message`). -/
  | invalidPayload
  /-- "User not found". -/
  | userNotFound
  /-- "Product with ID {productId} not found". -/
  | productNotFound (productId : Int)
  /-- "Insufficient stock for product {name}. Available: {available}, Requested: {requested}". -/
  | insufficientStock (name : String) (available requested : Int)
deriving Repr, DecidableEq

/-- The JSON `error` string of each 400 body, as the handler interpolates it. -/
def OrderErr.render : OrderErr → String
  | .invalidPayload => "Validation failed"
  | .userNotFound => "User not found"
  | .productNotFound pid =>
      "Product with ID " ++ toString pid ++ " not found"
  | .insufficientStock n a r =>
      "Insufficient stock for product " ++ n ++ ". Available: " ++ toString a ++
        ", Requested: " ++ toString r

/-- Response of POST /api/orders: 201 with the persisted order and items,
a 400 business/validation error, or the catch-all 500
"Internal server error". -/
inductive OrderResp where
  | created (o : OrderRow) (items : List ItemRow)
  | badRequest (e : OrderErr)
  | internalError
deriving Repr, DecidableEq

/-- HTTP status code of each `OrderResp`. -/
def OrderResp.status : OrderResp → Nat
  | .created _ _ => 201
  | .badRequest _ => 400
  | .internalError => 500

/-- The JS object `productDetails` keyed by productId; assignment
`productDetails[pid] = v` overwrites an existing key and otherwise appends. -/
def upsertDetail (l : List (Int × ProductInfo)) (k : Int) (v : ProductInfo) :
    List (Int × ProductInfo) :=
  if l.any (fun kv => kv.1 == k) then
    l.map (fun kv => if kv.1 == k then (k, v) else kv)
  else
    l ++ [(k, v)]

/-- Reading `productDetails[pid]`; on the paths the handler reaches, the key
is always present, so the default is never observed. -/
def lookupDetail (l : List (Int × ProductInfo)) (k : Int) : ProductInfo :=
  ((l.find? (fun kv => kv.1 == k)).map (fun kv => kv.2)).getD ⟨"", 0, 0⟩

/-- Outcome of the product-validation loop of POST /api/orders. -/
inductive ItemsOut where
  | ok (details : List (Int × ProductInfo))
  | fail400 (e : OrderErr)
  | fail500
deriving Repr, DecidableEq

/-- The `for (const item of items)` loop of POST /api/orders: GET each
product; a 404 response becomes 400 "Product with ID ... not found"; any
other axios failure is re-thrown (500); `product.stock < quantity` becomes
the 400 insufficient-stock error; otherwise the snapshotted
price/name/stock are recorded in `productDetails` and the loop continues.
Also returns the outbound calls made, in order. -/
def checkItems (env : OrderEnv) :
    List OrderItemReq → List (Int × ProductInfo) → ItemsOut × List Event
  | [], acc => (.ok acc, [])
  | it :: rest, acc =>
    let ev := Event.http .GET .productSvc it.productId
    match env.products it.productId with
    | .ok p =>
      if p.stock < it.quantity then
        (.fail400 (.insufficientStock p.name p.stock it.quantity), [ev])
      else
        let r := checkItems env rest (upsertDetail acc it.productId ⟨p.name, p.price, p.stock⟩)
        (r.1, ev :: r.2)
    | .notFound => (.fail400 (.productNotFound it.productId), [ev])
    | .errored => (.fail500, [ev])

/-- `items.reduce((total, item) => total + productDetails[pid].price * qty, 0)`. -/
def computeTotal (details : List (Int × ProductInfo)) (items : List OrderItemReq) : Int :=
  items.foldl (fun t it => t + (lookupDetail details it.productId).price * it.quantity) 0

/-- INSERT INTO orders ... RETURNING: fails (throws) exactly when a table
CHECK is violated — total_amount > 0 and the status constraint ('pending'
always satisfies it). -/
def insertOrderRow (db : OrderDB) (uid : Int) (total : Int) (now : Nat) :
    Option (OrderDB × OrderRow) :=
  let row : OrderRow := ⟨db.nextOrderId, uid, total, "pending", now, now⟩
  if decide (0 < total) && statusAllowed row.status then
    some ({ db with orders := db.orders ++ [row], nextOrderId := db.nextOrderId + 1 }, row)
  else
    none

/-- INSERT INTO order_items ... RETURNING *: fails (throws) exactly when a
table CHECK is violated — quantity > 0 or price > 0. -/
def insertItemRow (db : OrderDB) (oid : Nat) (it : OrderItemReq) (info : ProductInfo) :
    Option (OrderDB × ItemRow) :=
  let row : ItemRow := ⟨db.nextItemId, oid, it.productId, it.quantity, info.price, info.name⟩
  if decide (0 < it.quantity) && decide (0 < info.price) then
    some ({ db with items := db.items ++ [row], nextItemId := db.nextItemId + 1 }, row)
  else
    none

/-- The item-insert loop inside the transaction: one INSERT per line item,
aborting on the first failure (the thrown error reaches the ROLLBACK
handler).  Also returns the insert statements issued, in order. -/
def insertItems (db : OrderDB) (oid : Nat) (details : List (Int × ProductInfo)) :
    List OrderItemReq → Option (OrderDB × List ItemRow) × List Event
  | [] => (some (db, []), [])
  | it :: rest =>
    match insertItemRow db oid it (lookupDetail details it.productId) with
    | none => (none, [.insItem])
    | some (db1, row) =>
      let r := insertItems db1 oid details rest
      (match r.1 with
       | none => none
       | some (db2, rows) => some (db2, row :: rows), .insItem :: r.2)

/-- POST /api/orders, end to end: Joi validation; GET the user (404 → 400
"User not found", other failure → 500); the product-validation loop;
total computation; then the scoped transaction (BEGIN, the inserts, COMMIT
on success / ROLLBACK and 500 on any insert failure).  Returns the
response, the database after the request (unchanged except on the 201
path) and the event trace in program order. -/
def createOrder (env : OrderEnv) (db : OrderDB) (body : OrderPayload) (now : Nat) :
    OrderResp × OrderDB × List Event :=
  if validOrderPayload body then
    let uev := Event.http .GET .userSvc body.userId
    match env.users body.userId with
    | .notFound => (.badRequest .userNotFound, db, [uev])
    | .errored => (.internalError, db, [uev])
    | .ok _ =>
      let r := checkItems env body.items []
      match r.1 with
      | .fail400 e => (.badRequest e, db, uev :: r.2)
      | .fail500 => (.internalError, db, uev :: r.2)
      | .ok details =>
        let total := computeTotal details body.items
        match insertOrderRow db body.userId total now with
        | none =>
          (.internalError, db, uev :: r.2 ++ [.txBegin, .insOrder, .txRollback])
        | some (db1, orow) =>
          let ir := insertItems db1 orow.id details body.items
          match ir.1 with
          | none =>
            (.internalError, db, uev :: r.2 ++ [.txBegin, .insOrder] ++ ir.2 ++ [.txRollback])
          | some (db2, irows) =>
            (.created orow irows, db2,
              uev :: r.2 ++ [.txBegin, .insOrder] ++ ir.2 ++ [.txCommit])
  else
    (.badRequest .invalidPayload, db, [])

/-- PUT /api/orders/:id: Joi-validate the status, UPDATE ... RETURNING,
404 when no row matched. -/
def updateOrderStatus (db : OrderDB) (oid : Nat) (status : String) (now : Nat) :
    Option OrderRow × OrderDB :=
  if statusAllowed status then
    let newOrders :=
      db.orders.map (fun q => if q.id == oid then { q with status := status, updatedAt := now } else q)
    match newOrders.find? (fun o => o.id == oid) with
    | some o' => (some o', { db with orders := newOrders })
    | none => (none, db)
  else
    (none, db)

/-- The order-with-items view GET /api/orders/:id builds: the stored row,
its stored items (price and product_name straight from order_items), and a
user name fetched from the user service with fallback "Unknown User".  The
product service is never consulted. -/
def getOrderById (env : OrderEnv) (db : OrderDB) (oid : Nat) :
    Option (OrderRow × List ItemRow × String) :=
  match db.orders.find? (fun o => o.id == oid) with
  | none => none
  | some o =>
    let irows := db.items.filter (fun it => it.orderId == o.id)
    let uname :=
      match env.users o.userId with
      | .ok u => u.name
      | _ => "Unknown User"
    some (o, irows, uname)

/-- The route table of the order service (Express registrations in
src/index.ts): GET /health, POST /api/orders, GET /api/orders,
GET /api/orders/:id, PUT /api/orders/:id, GET /api/orders/user/:userId. -/
inductive OrderPath where
  | health
  | ordersRoot
  | ordersId
  | ordersUser
deriving Repr, DecidableEq

/-- The method/path pairs the order service registers handlers for. -/
def orderServiceRoutes : List (Method × OrderPath) :=
  [(.GET, .health), (.POST, .ordersRoot), (.GET, .ordersRoot),
   (.GET, .ordersId), (.PUT, .ordersId), (.GET, .ordersUser)]

/-- Whether some registered route matches a request; when none does,
Express falls through to the `app.use('*')` handler, which answers
404 `{"error": "Route not found"}`. -/
def orderServiceHasRoute (m : Method) (p : OrderPath) : Bool :=
  orderServiceRoutes.any (fun r => r.1 == m && r.2 == p)

/-- The status and error body of the order service's catch-all route
(`app.use('*')`). -/
def orderServiceFallback : Nat × String :=
  (404, "Route not found")

end OrderSvc

namespace UserSvc

/-- A leaf JSON value of a user-service response body. -/
inductive JAtom where
  | str (s : String)
  | num (n : Int)
deriving Repr, DecidableEq

/-- A value of a top-level field of a user-service response body.  Every
body the service writes is a JSON object of depth at most two: leaf values,
one nested flat object (`user`), or an array of flat objects (`users`), so
this grammar covers the service's output exactly. -/
inductive JVal where
  | atom (a : JAtom)
  | obj (fields : List (String × JAtom))
  | arr (elems : List (List (String × JAtom)))
deriving Repr, DecidableEq

/-- A user-service response body: a JSON object, keys in writing order. -/
abbrev JBody := List (String × JVal)

/-- Whether a flat JSON object has a field named `k`. -/
def objHasKey (k : String) (fs : List (String × JAtom)) : Bool :=
  fs.any (fun f => f.1 == k)

/-- Whether a field value contains a field named `k` anywhere inside. -/
def valHasKey (k : String) : JVal → Bool
  | .atom _ => false
  | .obj fs => objHasKey k fs
  | .arr es => es.any (objHasKey k)

/-- Whether a response body contains a field named `k` anywhere (at the top
level or nested). -/
def bodyHasKey (k : String) (b : JBody) : Bool :=
  b.any (fun f => f.1 == k || valHasKey k f.2)

/-- A row of the `users` table: id SERIAL, email UNIQUE, password (the
bcrypt hash), name, created_at, updated_at. -/
structure UserRow where
  id : Nat
  email : String
  password : String
  name : String
  createdAt : Nat
  updatedAt : Nat
deriving Repr, DecidableEq

/-- The libraries the user service calls out to, as abstract functions:
Joi's email format check, bcrypt.hash / bcrypt.compare, and jwt.sign
(whose payload is the user's id and email, never the password). -/
structure UserEnv where
  isEmail : String → Bool
  bcryptHash : String → String
  bcryptCompare : String → String → Bool
  jwtSign : Nat → String → String

/-- Outcome of one user-service request: HTTP status, JSON body, and the
users table afterwards. -/
structure HttpOut where
  status : Nat
  body : JBody
  db : List UserRow
deriving Repr

/-- The `{id, email, name, createdAt}` object the service builds from a row
wherever it returns a user — the `password` column is never copied in. -/
def userView (u : UserRow) : List (String × JAtom) :=
  [("id", .num u.id), ("email", .str u.email), ("name", .str u.name),
   ("createdAt", .num u.createdAt)]

/-- A `{"error": msg}` body. -/
def errBody (msg : String) : JBody :=
  [("error", .atom (.str msg))]

/-- Joi `userSchema`: email in email format, password at least 6
characters, name at least 2 characters (all required). -/
def validRegister (env : UserEnv) (email pw name : String) : Bool :=
  env.isEmail email && decide (6 ≤ pw.length) && decide (2 ≤ name.length)

/-- POST /api/users/register: validate, 409 when the email already exists,
hash the password with bcrypt, INSERT ... RETURNING, answer 201 with
message and the user view (no password field). -/
def registerUser (env : UserEnv) (db : List UserRow) (email pw name : String)
    (nextId : Nat) (now : Nat) : HttpOut :=
  if validRegister env email pw name then
    if db.any (fun u => u.email == email) then
      ⟨409, errBody "User already exists", db⟩
    else
      let u : UserRow := ⟨nextId, email, env.bcryptHash pw, name, now, now⟩
      ⟨201, [("message", .atom (.str "User created successfully")),
             ("user", .obj (userView u))], db ++ [u]⟩
  else
    ⟨400, errBody "Validation failed", db⟩

/-- POST /api/users/login: validate, look the row up by email, compare the
submitted password against the stored hash (the handler reads
`user.password` here), sign a JWT over id and email, answer 200 with
message, token and the `{id, email, name}` view. -/
def loginUser (env : UserEnv) (db : List UserRow) (email pw : String) : HttpOut :=
  if env.isEmail email && (pw ≠ "" : Bool) then
    match db.find? (fun u => u.email == email) with
    | none => ⟨401, errBody "Invalid credentials", db⟩
    | some u =>
      if env.bcryptCompare pw u.password then
        ⟨200, [("message", .atom (.str "Login successful")),
               ("token", .atom (.str (env.jwtSign u.id u.email))),
               ("user", .obj [("id", .num u.id), ("email", .str u.email),
                              ("name", .str u.name)])], db⟩
      else
        ⟨401, errBody "Invalid credentials", db⟩
  else
    ⟨400, errBody "Validation failed", db⟩

/-- GET /api/users: SELECT id, email, name, created_at (the password column
is not even selected); 200 with the array of user views. -/
def getUsers (db : List UserRow) : HttpOut :=
  ⟨200, [("users", .arr (db.map userView))], db⟩

/-- GET /api/users/:id: 404 when no row matches, else 200 with the user
view. -/
def getUserById (db : List UserRow) (uid : Nat) : HttpOut :=
  match db.find? (fun u => u.id == uid) with
  | none => ⟨404, errBody "User not found", db⟩
  | some u => ⟨200, [("user", .obj (userView u))], db⟩

/-- PUT /api/users/:id: 400 unless at least one of name/email is present
(JS truthiness: the empty string counts as absent), dynamic UPDATE of the
present fields plus updated_at, 404 when no row matches, 200 with the
updated view. -/
def updateUser (db : List UserRow) (uid : Nat) (name email : String)
    (now : Nat) : HttpOut :=
  if name = "" ∧ email = "" then
    ⟨400, errBody "Name or email is required", db⟩
  else
    let upd := fun (u : UserRow) => { u with
      name := if name ≠ "" then name else u.name
      email := if email ≠ "" then email else u.email
      updatedAt := now }
    let newDb := db.map (fun q => if q.id == uid then upd q else q)
    match newDb.find? (fun u => u.id == uid) with
    | none => ⟨404, errBody "User not found", db⟩
    | some u' =>
      ⟨200, [("message", .atom (.str "User updated successfully")),
             ("user", .obj [("id", .num u'.id), ("email", .str u'.email),
                            ("name", .str u'.name), ("updatedAt", .num u'.updatedAt)])],
        newDb⟩

/-- DELETE /api/users/:id: DELETE ... RETURNING id, 404 when no row
matched, else 200 with a message body. -/
def deleteUser (db : List UserRow) (uid : Nat) : HttpOut :=
  if db.any (fun u => u.id == uid) then
    ⟨200, [("message", .atom (.str "User deleted successfully"))],
      db.filter (fun u => ¬ u.id == uid)⟩
  else
    ⟨404, errBody "User not found", db⟩

end UserSvc

namespace OrderSvc

/-- The price the product-lookup collaborator reports for `pid` (0 when the
fetch does not succeed; on the paths where this is used, it always does). -/
def envPrice (env : OrderEnv) (pid : Int) : Int :=
  match env.products pid with
  | .ok p => p.price
  | _ => 0

/-- The name the product-lookup collaborator reports for `pid`. -/
def envName (env : OrderEnv) (pid : Int) : String :=
  match env.products pid with
  | .ok p => p.name
  | _ => ""

/-- The total the spec prescribes: the sum over the line items of the
collaborator-reported price times the requested quantity. -/
def specTotal (env : OrderEnv) (items : List OrderItemReq) : Int :=
  items.foldl (fun t it => t + envPrice env it.productId * it.quantity) 0

/-- The snapshot data stored in an item row. -/
def ItemRow.snap (r : ItemRow) : Int × Int × Int × String :=
  (r.productId, r.quantity, r.price, r.productName)

/-- The snapshot the spec prescribes for a line item: its product id and
quantity together with the price and name fetched at creation time. -/
def specSnap (env : OrderEnv) (it : OrderItemReq) : Int × Int × Int × String :=
  (it.productId, it.quantity, envPrice env it.productId, envName env it.productId)

/-- Whether a line item's product was fetched successfully with enough
stock for the requested quantity. -/
def sufficientStock (env : OrderEnv) (it : OrderItemReq) : Bool :=
  match env.products it.productId with
  | .ok p => decide (it.quantity ≤ p.stock)
  | _ => false

/-- Checks a trace for C7: once a BEGIN appears, no later event may be an
outbound HTTP call. -/
def noHttpAfterBegin : List Event → Bool
  | [] => true
  | e :: rest =>
    if e = .txBegin then rest.all (fun x => !x.isHttp) else noHttpAfterBegin rest

/-- Effect of one create-order trace event on the product service's table:
a GET to the product service runs handler `getProduct`, which returns the
table unchanged; events that are not product-service HTTP calls never
touch that table.  A non-GET product-service call would run one of the
mutating handlers; the C6 theorem shows the create-order trace contains
none, so no such case arises. -/
def applyEventToProducts (pdb : List ProductSvc.Product) : Event → List ProductSvc.Product
  | .http .GET .productSvc pid => (ProductSvc.getProduct pdb pid.toNat).2
  | _ => pdb

end OrderSvc

open ProductSvc OrderSvc UserSvc

/-- C1: the claim says a `{"price": 150}` partial update changes only price
(and updated_at).  On the code it does not: the Go zero value 0 of the
omitted Stock field satisfies the presence test `req.Stock >= 0`, so the
dynamic UPDATE also sets `stock = 0`.  At the failing input — a stored
product with stock 5 and the request `{price := 150}` (all other fields at
their zero values, exactly what decoding `{"price": 150}` produces) — the
handler answers 200 with stock reset from 5 to 0, while name, description,
category and created_at are indeed unchanged. -/
theorem updateProduct_price_only_resets_stock :
    updateProduct [⟨1, "Laptop", "gaming laptop", 999, 5, "Electronics", 7, 7⟩]
        1 { price := 150 } 8
      = (.ok ⟨1, "Laptop", "gaming laptop", 150, 0, "Electronics", 7, 8⟩,
         [⟨1, "Laptop", "gaming laptop", 150, 0, "Electronics", 7, 8⟩]) := by
  decide

/-- C10: a create-product request whose stock field is exactly 0 is
rejected with a 400 binding error and persists nothing — the Gin
`required` tag treats the integer zero value as a missing field — even
though the row the insert would have produced satisfies the storage
constraint CHECK (stock >= 0). -/
theorem createProduct_stock_zero_rejected
    (db : List Product) (req : CreateProductRequest) (nextId now : Nat)
    (h : req.stock = 0) :
    createProduct db req nextId now = (.bindFailed, db) ∧
    ProductResp.bindFailed.status = 400 ∧
    stockCheck ⟨nextId, req.name, req.description, req.price, req.stock,
      req.category, now, now⟩ = true := by
  refine ⟨?_, rfl, ?_⟩
  · unfold createProduct bindCreateProduct
    simp [h]
  · simp [stockCheck, h]

/-- C10 witness: the concrete request
`{name := "Widget", description := "d", price := 10, stock := 0,
category := "c"}` against the empty table. -/
theorem createProduct_stock_zero_rejected_witness :
    createProduct [] { name := "Widget", description := "d", price := 10,
                       stock := 0, category := "c" } 1 0 = (.bindFailed, []) ∧
    ProductResp.bindFailed.status = 400 ∧
    stockCheck ⟨1, "Widget", "d", 10, 0, "c", 0, 0⟩ = true := by
  exact createProduct_stock_zero_rejected [] _ 1 0 rfl

/-- C9: deleting an id with no matching row is answered with a not-found
failure, never success, by all three services: the user service's DELETE
handler answers 404 "User not found" (table unchanged), the product
service's deleteProduct answers 404 "Product not found" (table unchanged),
and the order service — which registers no DELETE route at all — answers a
DELETE request through its catch-all handler with 404 "Route not found". -/
theorem delete_missing_id_not_found
    (udb : List UserRow) (uid : Nat) (pdb : List Product) (pid : Nat)
    (opat : OrderPath)
    (hu : ∀ u ∈ udb, u.id ≠ uid) (hp : ∀ p ∈ pdb, p.id ≠ pid) :
    deleteUser udb uid = ⟨404, errBody "User not found", udb⟩ ∧
    deleteProduct pdb pid = (.notFound, pdb) ∧
    ProductResp.notFound.status = 404 ∧
    orderServiceHasRoute .DELETE opat = false ∧
    orderServiceFallback = (404, "Route not found") := by
  refine ⟨?_, ?_, rfl, ?_, rfl⟩
  · unfold deleteUser
    have : udb.any (fun u => u.id == uid) = false := by
      simp only [List.any_eq_false]
      intro u hmem
      simpa using hu u hmem
    simp [this]
  · unfold deleteProduct
    have : pdb.filter (fun p => ¬ p.id == pid) = pdb := by
      apply List.filter_eq_self.mpr
      intro p hmem
      simpa using hp p hmem
    simp only [this, beq_self_eq_true, if_true]
  · cases opat <;> rfl

/-- C9 witness: a one-row user table without id 2, a one-row product table
without id 9, and the order-service DELETE /api/orders/:id route shape. -/
theorem delete_missing_id_not_found_witness :
    deleteUser [⟨1, "a@x", "h", "A", 0, 0⟩] 2
        = ⟨404, errBody "User not found", [⟨1, "a@x", "h", "A", 0, 0⟩]⟩ ∧
    deleteProduct [⟨1, "L", "d", 9, 1, "E", 0, 0⟩] 9
        = (.notFound, [⟨1, "L", "d", 9, 1, "E", 0, 0⟩]) ∧
    ProductResp.notFound.status = 404 ∧
    orderServiceHasRoute .DELETE .ordersId = false ∧
    orderServiceFallback = (404, "Route not found") := by
  exact delete_missing_id_not_found [⟨1, "a@x", "h", "A", 0, 0⟩] 2
    [⟨1, "L", "d", 9, 1, "E", 0, 0⟩] 9 .ordersId (by decide) (by decide)

/-- C5: during order creation, a 404 from the user-lookup collaborator is
translated into the 400 business error "User not found", while any other
user-lookup failure is re-thrown and surfaces as the generic 500
"Internal server error" — the same response every unexpected failure gets;
in both cases the database is untouched.  The boolean selects the case:
`true` for the 404, `false` for any other failure. -/
theorem createOrder_user_lookup_failure
    (env : OrderEnv) (db : OrderDB) (body : OrderPayload) (now : Nat) (b : Bool)
    (hv : validOrderPayload body = true)
    (hu : env.users body.userId = (if b then .notFound else .errored)) :
    (createOrder env db body now).1
        = (if b then .badRequest .userNotFound else .internalError) ∧
    (createOrder env db body now).2.1 = db ∧
    (createOrder env db body now).1.status = (if b then 400 else 500) := by
  cases b <;> simp only [if_true, if_false, Bool.false_eq_true] at hu ⊢ <;>
    simp [createOrder, hv, hu, OrderResp.status]

/-- C5 witness: a collaborator that reports 404 for every user id, with a
valid one-item payload. -/
theorem createOrder_user_lookup_failure_witness :
    (createOrder ⟨fun _ => .notFound, fun _ => .ok ⟨"W", 10, 5⟩⟩ ⟨[], [], 1, 1⟩
        ⟨1, [⟨1, 1⟩]⟩ 0).1 = .badRequest .userNotFound ∧
    (createOrder ⟨fun _ => .notFound, fun _ => .ok ⟨"W", 10, 5⟩⟩ ⟨[], [], 1, 1⟩
        ⟨1, [⟨1, 1⟩]⟩ 0).2.1 = ⟨[], [], 1, 1⟩ ∧
    (createOrder ⟨fun _ => .notFound, fun _ => .ok ⟨"W", 10, 5⟩⟩ ⟨[], [], 1, 1⟩
        ⟨1, [⟨1, 1⟩]⟩ 0).1.status = 400 := by
  simpa using createOrder_user_lookup_failure
    ⟨fun _ => .notFound, fun _ => .ok ⟨"W", 10, 5⟩⟩ ⟨[], [], 1, 1⟩
    ⟨1, [⟨1, 1⟩]⟩ 0 true (by decide) rfl

/-- Helper for C8: none of the per-user view objects the service builds has
a password field. -/
theorem userViews_no_password (db : List UserRow) :
    (db.map userView).any (objHasKey "password") = false := by
  induction db with
  | nil => rfl
  | cons u rest ih =>
    simp only [List.map_cons, List.any_cons, ih, Bool.or_false]
    rfl

/-- C8: no user-service response body ever contains a password field — for
register, login (which reads the stored hash internally to compare),
get-all-users, get-user-by-id, update and delete, over every table state
(whose rows do store the bcrypt hash), every request and every crypto/JWT
library behaviour. -/
theorem user_service_never_returns_password
    (env : UserEnv) (db : List UserRow) (email pw name uname uemail : String)
    (uid nextId now : Nat) :
    bodyHasKey "password" (registerUser env db email pw name nextId now).body = false ∧
    bodyHasKey "password" (loginUser env db email pw).body = false ∧
    bodyHasKey "password" (getUsers db).body = false ∧
    bodyHasKey "password" (getUserById db uid).body = false ∧
    bodyHasKey "password" (updateUser db uid uname uemail now).body = false ∧
    bodyHasKey "password" (deleteUser db uid).body = false := by
  refine ⟨?_, ?_, ?_, ?_, ?_, ?_⟩
  · unfold registerUser
    split
    · split <;> rfl
    · rfl
  · unfold loginUser
    split
    · rcases h : db.find? (fun u => u.email == email) with _ | u
      · simp only [h]
        rfl
      · simp only [h]
        split <;> rfl
    · rfl
  · have h := userViews_no_password db
    simp [getUsers, bodyHasKey, valHasKey, h]
  · unfold getUserById
    rcases h : db.find? (fun u => u.id == uid) with _ | u <;> simp only [h] <;> rfl
  · unfold updateUser
    split
    · rfl
    · dsimp only
      repeat' split
      all_goals rfl
  · unfold deleteUser
    split <;> rfl

/-- A successful order-row insert appends exactly one row (built from the
next SERIAL id, the user id, the computed total, status 'pending' and the
clock) and touches nothing else. -/
theorem insertOrderRow_some (db : OrderDB) (uid total : Int) (now : Nat)
    (db1 : OrderDB) (orow : OrderRow)
    (h : insertOrderRow db uid total now = some (db1, orow)) :
    orow = ⟨db.nextOrderId, uid, total, "pending", now, now⟩ ∧
    db1.orders = db.orders ++ [orow] ∧ db1.items = db.items ∧
    db1.nextItemId = db.nextItemId := by
  unfold insertOrderRow at h
  dsimp only at h
  split at h
  · injection h with h2
    rw [Prod.mk.injEq] at h2
    obtain ⟨h3, h4⟩ := h2
    subst h3; subst h4
    exact ⟨rfl, rfl, rfl, rfl⟩
  · exact absurd h (by simp)

/-- A successful item-row insert appends exactly one row (the snapshot of
the line item) and touches nothing else. -/
theorem insertItemRow_some (db : OrderDB) (oid : Nat) (it : OrderItemReq)
    (info : ProductInfo) (db1 : OrderDB) (row : ItemRow)
    (h : insertItemRow db oid it info = some (db1, row)) :
    row = ⟨db.nextItemId, oid, it.productId, it.quantity, info.price, info.name⟩ ∧
    db1.items = db.items ++ [row] ∧ db1.orders = db.orders ∧
    db1.nextOrderId = db.nextOrderId := by
  unfold insertItemRow at h
  split at h
  · injection h with h2
    rw [Prod.mk.injEq] at h2
    obtain ⟨h3, h4⟩ := h2
    subst h3; subst h4
    exact ⟨rfl, rfl, rfl, rfl⟩
  · exact absurd h (by simp)

/-- When the item-insert loop succeeds it appends exactly the returned
rows, one per line item and in order, each storing the snapshotted
productId, quantity, price and product name from `details`; the orders
table and its counter are untouched. -/
theorem insertItems_some (oid : Nat) (details : List (Int × ProductInfo)) :
    ∀ (l : List OrderItemReq) (db db2 : OrderDB) (rows : List ItemRow),
      (insertItems db oid details l).1 = some (db2, rows) →
      db2.orders = db.orders ∧ db2.nextOrderId = db.nextOrderId ∧
      db2.items = db.items ++ rows ∧
      rows.map ItemRow.snap
        = l.map (fun it => (it.productId, it.quantity,
            (lookupDetail details it.productId).price,
            (lookupDetail details it.productId).name))
  | [], db, db2, rows, h => by
    simp only [insertItems, Option.some.injEq, Prod.mk.injEq] at h
    obtain ⟨h1, h2⟩ := h
    subst h1; subst h2
    simp
  | it :: rest, db, db2, rows, h => by
    unfold insertItems at h
    split at h
    case h_1 => exact absurd h (by simp)
    case h_2 db1 row heq1 =>
      dsimp only at h
      rcases hr : (insertItems db1 oid details rest).1 with _ | ⟨db2', rows'⟩
      · rw [hr] at h
        exact absurd h (by simp)
      · rw [hr] at h
        simp only [Option.some.injEq, Prod.mk.injEq] at h
        obtain ⟨h1, h2⟩ := h
        subst h1; subst h2
        obtain ⟨hrow, hitems1, horders1, hnid1⟩ :=
          insertItemRow_some db oid it (lookupDetail details it.productId) db1 row heq1
        obtain ⟨ho, hn, hi, hm⟩ := insertItems_some oid details rest db1 db2' rows' hr
        refine ⟨ho.trans horders1, hn.trans hnid1, ?_, ?_⟩
        · rw [hi, hitems1, List.append_assoc]
          rfl
        · simp only [List.map_cons, hm, hrow]
          rfl

/-- Every event the item-insert loop emits is an INSERT statement. -/
theorem insertItems_events (oid : Nat) (details : List (Int × ProductInfo)) :
    ∀ (l : List OrderItemReq) (db : OrderDB),
      ∀ e ∈ (insertItems db oid details l).2, e = Event.insItem
  | [], db, e, he => absurd he (by simp [insertItems])
  | it :: rest, db, e, he => by
    unfold insertItems at he
    split at he
    · simpa using he
    case h_2 db1 row heq1 =>
      dsimp only at he
      simp only [List.mem_cons] at he
      rcases he with he | he
      · exact he
      · exact insertItems_events oid details rest db1 e he

/-- Every event the product-validation loop emits is a GET to the product
service. -/
theorem checkItems_events (env : OrderEnv) :
    ∀ (l : List OrderItemReq) (acc : List (Int × ProductInfo)),
      ∀ e ∈ (checkItems env l acc).2, ∃ pid, e = Event.http .GET .productSvc pid
  | [], acc, e, he => absurd he (by simp [checkItems])
  | it :: rest, acc, e, he => by
    unfold checkItems at he
    split at he
    case h_1 p hp =>
      split at he
      · exact ⟨it.productId, by simpa using he⟩
      · dsimp only at he
        simp only [List.mem_cons] at he
        rcases he with he | he
        · exact ⟨it.productId, he⟩
        · exact checkItems_events env rest _ e he
    case h_2 => exact ⟨it.productId, by simpa using he⟩
    case h_3 => exact ⟨it.productId, by simpa using he⟩

/-- An entry of `productDetails` after an assignment is either the assigned
pair or one of the previous entries. -/
theorem mem_upsertDetail (l : List (Int × ProductInfo)) (k : Int) (v : ProductInfo)
    (kv : Int × ProductInfo) (h : kv ∈ upsertDetail l k v) :
    kv = (k, v) ∨ kv ∈ l := by
  unfold upsertDetail at h
  split at h
  · obtain ⟨kv0, hmem, heq⟩ := List.mem_map.mp h
    by_cases hk : (kv0.1 == k) = true
    · left
      rw [← heq]
      simp [hk]
    · right
      rw [← heq]
      simp only [hk, if_false]
      exact hmem
  · rcases List.mem_append.mp h with h1 | h1
    · right; exact h1
    · left; simpa using h1

/-- After `productDetails[k] = v` the key `k` is present. -/
theorem upsertDetail_hasKey_self (l : List (Int × ProductInfo)) (k : Int) (v : ProductInfo) :
    (upsertDetail l k v).any (fun kv => kv.1 == k) = true := by
  unfold upsertDetail
  split
  case isTrue h =>
    rw [List.any_eq_true] at h ⊢
    obtain ⟨kv0, hmem, hk⟩ := h
    exact ⟨(k, v), List.mem_map.mpr ⟨kv0, hmem, by simp [hk]⟩, by simp⟩
  case isFalse h =>
    rw [List.any_eq_true]
    exact ⟨(k, v), List.mem_append.mpr (.inr (by simp)), by simp⟩

/-- An assignment to `productDetails` never removes a key. -/
theorem upsertDetail_hasKey_mono (l : List (Int × ProductInfo)) (k : Int)
    (v : ProductInfo) (k' : Int) (h : l.any (fun kv => kv.1 == k') = true) :
    (upsertDetail l k v).any (fun kv => kv.1 == k') = true := by
  unfold upsertDetail
  split
  case isTrue hk =>
    rw [List.any_eq_true] at h ⊢
    obtain ⟨kv0, hmem, hp⟩ := h
    by_cases hq : (kv0.1 == k) = true
    · refine ⟨(k, v), List.mem_map.mpr ⟨kv0, hmem, by simp [hq]⟩, ?_⟩
      have h1 : kv0.1 = k := by simpa using hq
      have h2 : kv0.1 = k' := by simpa using hp
      simp [← h1, h2]
    · exact ⟨kv0, List.mem_map.mpr ⟨kv0, hmem, by simp [hq]⟩, hp⟩
  case isFalse hk =>
    rw [List.any_eq_true] at h ⊢
    obtain ⟨kv0, hmem, hp⟩ := h
    exact ⟨kv0, List.mem_append.mpr (.inl hmem), hp⟩

/-- When the product-validation loop succeeds, every recorded detail is
exactly what the collaborator returned for that product id, keys recorded
before the loop survive, and every processed line item has its product id
recorded. -/
theorem checkItems_ok_inv (env : OrderEnv) :
    ∀ (l : List OrderItemReq) (acc d : List (Int × ProductInfo)) (tr : List Event),
      checkItems env l acc = (.ok d, tr) →
      (∀ kv ∈ acc, env.products kv.1 = .ok kv.2) →
      (∀ kv ∈ d, env.products kv.1 = .ok kv.2) ∧
      (∀ k, acc.any (fun kv => kv.1 == k) = true → d.any (fun kv => kv.1 == k) = true) ∧
      (∀ it ∈ l, d.any (fun kv => kv.1 == it.productId) = true)
  | [], acc, d, tr, h, hacc => by
    simp only [checkItems, Prod.mk.injEq, ItemsOut.ok.injEq] at h
    obtain ⟨h1, -⟩ := h
    subst h1
    exact ⟨hacc, fun k hk => hk, by simp⟩
  | it :: rest, acc, d, tr, h, hacc => by
    unfold checkItems at h
    split at h
    case h_1 p hp =>
      split at h
      case isTrue => exact absurd h (by simp)
      case isFalse hlt =>
        dsimp only at h
        rcases hr : checkItems env rest (upsertDetail acc it.productId ⟨p.name, p.price, p.stock⟩)
          with ⟨out, tr2⟩
        rw [hr] at h
        simp only [Prod.mk.injEq] at h
        obtain ⟨h1, -⟩ := h
        subst h1
        have hacc' : ∀ kv ∈ upsertDetail acc it.productId ⟨p.name, p.price, p.stock⟩,
            env.products kv.1 = .ok kv.2 := by
          intro kv hkv
          rcases mem_upsertDetail _ _ _ kv hkv with h2 | h2
          · subst h2
            exact hp
          · exact hacc kv h2
        obtain ⟨hsound, hmono, hall⟩ := checkItems_ok_inv env rest _ d tr2 hr hacc'
        refine ⟨hsound, ?_, ?_⟩
        · intro k hk
          exact hmono k (upsertDetail_hasKey_mono acc it.productId _ k hk)
        · intro j hj
          rcases List.mem_cons.mp hj with h2 | h2
          · subst h2
            exact hmono j.productId (upsertDetail_hasKey_self acc j.productId _)
          · exact hall j h2
    case h_2 => exact absurd h (by simp)
    case h_3 => exact absurd h (by simp)

/-- Reading `productDetails[k]` under the loop invariant returns exactly
the collaborator's report for `k`. -/
theorem lookupDetail_sound (env : OrderEnv) (d : List (Int × ProductInfo)) (k : Int)
    (hs : ∀ kv ∈ d, env.products kv.1 = .ok kv.2)
    (hk : d.any (fun kv => kv.1 == k) = true) :
    env.products k = .ok (lookupDetail d k) := by
  unfold lookupDetail
  rcases hf : d.find? (fun kv => kv.1 == k) with _ | kv
  · rw [List.find?_eq_none] at hf
    rw [List.any_eq_true] at hk
    obtain ⟨kv, hmem, hp⟩ := hk
    exact absurd hp (by simpa using hf kv hmem)
  · rw [hf]
    have hmem := List.mem_of_find?_eq_some hf
    have hp := List.find?_some hf
    have hkk : kv.1 = k := by simpa using hp
    rw [← hkk]
    simpa using hs kv hmem

/-- Under the loop invariant, the handler's total (computed from
`productDetails`) is exactly the spec's Σ fetched price × quantity. -/
theorem computeTotal_fold (env : OrderEnv) (d : List (Int × ProductInfo))
    (hs : ∀ kv ∈ d, env.products kv.1 = .ok kv.2) :
    ∀ (l : List OrderItemReq),
      (∀ it ∈ l, d.any (fun kv => kv.1 == it.productId) = true) →
      ∀ t : Int,
        l.foldl (fun t it => t + (lookupDetail d it.productId).price * it.quantity) t
          = l.foldl (fun t it => t + envPrice env it.productId * it.quantity) t
  | [], _, t => rfl
  | it :: rest, hmem, t => by
    have h1 : env.products it.productId = .ok (lookupDetail d it.productId) :=
      lookupDetail_sound env d it.productId hs (hmem it (by simp))
    have h2 : envPrice env it.productId = (lookupDetail d it.productId).price := by
      unfold envPrice
      rw [h1]
    simp only [List.foldl_cons]
    rw [h2]
    exact computeTotal_fold env d hs rest (fun j hj => hmem j (by simp [hj])) _

/-- Under the loop invariant, the handler's per-item snapshots (from
`productDetails`) are exactly the spec's fetched price/name snapshots. -/
theorem detailSnap_spec (env : OrderEnv) (d : List (Int × ProductInfo))
    (hs : ∀ kv ∈ d, env.products kv.1 = .ok kv.2) :
    ∀ (l : List OrderItemReq),
      (∀ it ∈ l, d.any (fun kv => kv.1 == it.productId) = true) →
      l.map (fun it => (it.productId, it.quantity,
          (lookupDetail d it.productId).price, (lookupDetail d it.productId).name))
        = l.map (specSnap env)
  | [], _ => rfl
  | it :: rest, hmem => by
    have h1 : env.products it.productId = .ok (lookupDetail d it.productId) :=
      lookupDetail_sound env d it.productId hs (hmem it (by simp))
    have h2 : envPrice env it.productId = (lookupDetail d it.productId).price := by
      unfold envPrice
      rw [h1]
    have h3 : envName env it.productId = (lookupDetail d it.productId).name := by
      unfold envName
      rw [h1]
    simp only [List.map_cons]
    rw [detailSnap_spec env d hs rest (fun j hj => hmem j (by simp [hj]))]
    unfold specSnap
    rw [h2, h3]

/-- C2: order creation is all-or-nothing.  For every collaborator
behaviour, database state and request, either the handler answers 201
(`created`) and the database afterwards holds exactly the previous orders
plus the one new order row and the previous item rows plus one new item
row per line item — or the handler answers a 400/500 failure (validation,
user/product not found, insufficient stock, or an insert error inside the
transaction, which is rolled back) and the database is exactly what it
was. -/
theorem createOrder_all_or_nothing (env : OrderEnv) (db : OrderDB)
    (body : OrderPayload) (now : Nat) :
    ((createOrder env db body now).2.1 = db ∧
      ∀ o its, (createOrder env db body now).1 ≠ .created o its) ∨
    (∃ o its, (createOrder env db body now).1 = .created o its ∧
      (createOrder env db body now).1.status = 201 ∧
      (createOrder env db body now).2.1.orders = db.orders ++ [o] ∧
      (createOrder env db body now).2.1.items = db.items ++ its ∧
      its.length = body.items.length) := by
  simp only [createOrder]
  split
  case isFalse hv => exact .inl ⟨rfl, by simp⟩
  case isTrue hv =>
    split
    case h_1 => exact .inl ⟨rfl, by simp⟩
    case h_2 => exact .inl ⟨rfl, by simp⟩
    case h_3 u hu =>
      split
      case h_1 => exact .inl ⟨rfl, by simp⟩
      case h_2 => exact .inl ⟨rfl, by simp⟩
      case h_3 details hchk =>
        split
        case h_1 => exact .inl ⟨rfl, by simp⟩
        case h_2 db1 orow hins =>
          split
          case h_1 hitems => exact .inl ⟨rfl, by simp⟩
          case h_2 db2 irows hitems =>
            right
            refine ⟨orow, irows, rfl, rfl, ?_, ?_, ?_⟩
            · obtain ⟨-, ho1, -, -⟩ :=
                insertOrderRow_some db body.userId _ now db1 orow hins
              obtain ⟨ho2, -, -, -⟩ := insertItems_some orow.id details body.items db1 db2 irows hitems
              rw [ho2, ho1]
            · obtain ⟨-, -, hi1, -⟩ :=
                insertOrderRow_some db body.userId _ now db1 orow hins
              obtain ⟨-, -, hi2, -⟩ := insertItems_some orow.id details body.items db1 db2 irows hitems
              rw [hi2, hi1]
            · obtain ⟨-, -, -, hm⟩ := insertItems_some orow.id details body.items db1 db2 irows hitems
              have := congrArg List.length hm
              simpa using this

/-- The status-update handler touches only status and updated_at: every
order's total_amount and the whole order_items table are unchanged. -/
theorem updateOrderStatus_preserves (db : OrderDB) (oid : Nat) (st : String) (now : Nat) :
    (updateOrderStatus db oid st now).2.orders.map OrderRow.totalAmount
        = db.orders.map OrderRow.totalAmount ∧
    (updateOrderStatus db oid st now).2.items = db.items := by
  have hpt : ∀ q : OrderRow,
      ((if (q.id == oid) = true then { q with status := st, updatedAt := now } else q) :
        OrderRow).totalAmount = q.totalAmount := by
    intro q
    split <;> rfl
  unfold updateOrderStatus
  split
  · dsimp only
    split
    · refine ⟨?_, rfl⟩
      simp only [List.map_map]
      exact List.map_congr_left (fun q _ => hpt q)
    · exact ⟨rfl, rfl⟩
  · exact ⟨rfl, rfl⟩

/-- C3: for every successfully created order, the persisted total_amount is
exactly the sum over the line items of the price fetched from the product
service at creation time × quantity; each persisted item row stores that
snapshotted price and product name; a later status update recomputes
nothing (totals and item rows unchanged); and order reads are independent
of the product-lookup collaborator entirely, so later product price
changes cannot affect the stored total. -/
theorem createOrder_snapshot_total
    (env : OrderEnv) (db : OrderDB) (body : OrderPayload) (now : Nat)
    (o : OrderRow) (its : List ItemRow) (db' : OrderDB) (tr : List Event)
    (oid2 : Nat) (st : String) (now2 : Nat) (oid3 : Nat)
    (pf : Int → Fetch ProductInfo)
    (h : createOrder env db body now = (.created o its, db', tr)) :
    o.totalAmount = specTotal env body.items ∧
    its.map ItemRow.snap = body.items.map (specSnap env) ∧
    (updateOrderStatus db' oid2 st now2).2.orders.map OrderRow.totalAmount
        = db'.orders.map OrderRow.totalAmount ∧
    (updateOrderStatus db' oid2 st now2).2.items = db'.items ∧
    getOrderById ⟨env.users, pf⟩ db' oid3 = getOrderById env db' oid3 := by
  obtain ⟨hp1, hp2⟩ := updateOrderStatus_preserves db' oid2 st now2
  refine ⟨?_, ?_, hp1, hp2, rfl⟩ <;>
  · simp only [createOrder] at h
    split at h
    case isFalse => simp at h
    case isTrue hv =>
      split at h
      case h_1 => simp at h
      case h_2 => simp at h
      case h_3 u hu =>
        split at h
        case h_1 => simp at h
        case h_2 => simp at h
        case h_3 details hchk =>
          rcases hC : checkItems env body.items [] with ⟨out, tr2⟩
          rw [hC] at hchk
          subst hchk
          obtain ⟨hsound, -, hall⟩ :=
            checkItems_ok_inv env body.items [] details tr2 hC (by simp)
          split at h
          case h_1 => simp at h
          case h_2 db1 orow hins =>
            split at h
            case h_1 => simp at h
            case h_2 db2 irows hitems =>
              simp only [Prod.mk.injEq, OrderResp.created.injEq] at h
              obtain ⟨⟨ho, hits⟩, -, -⟩ := h
              subst ho
              subst hits
              obtain ⟨horow, -, -, -⟩ :=
                insertOrderRow_some db body.userId _ now db1 orow hins
              obtain ⟨-, -, -, hm⟩ :=
                insertItems_some orow.id details body.items db1 db2 irows hitems
              first
              | · rw [horow]
                  show computeTotal details body.items = specTotal env body.items
                  unfold computeTotal specTotal
                  exact computeTotal_fold env details hsound body.items hall 0
              | · rw [hm]
                  exact detailSnap_spec env details hsound body.items hall

/-- C3 witness: one order of 3 Widgets at fetched price 10 — stored total
30, snapshots as fetched, a later status update changing nothing, and
reads independent of the product collaborator. -/
theorem createOrder_snapshot_total_witness :
    (⟨1, 1, 30, "pending", 9, 9⟩ : OrderRow).totalAmount
        = specTotal ⟨fun _ => .ok ⟨"Alice"⟩, fun _ => .ok ⟨"Widget", 10, 5⟩⟩ [⟨1, 3⟩] ∧
    ([⟨1, 1, 1, 3, 10, "Widget"⟩] : List ItemRow).map ItemRow.snap
        = [(⟨1, 3⟩ : OrderItemReq)].map
            (specSnap ⟨fun _ => .ok ⟨"Alice"⟩, fun _ => .ok ⟨"Widget", 10, 5⟩⟩) ∧
    (updateOrderStatus ⟨[⟨1, 1, 30, "pending", 9, 9⟩], [⟨1, 1, 1, 3, 10, "Widget"⟩], 2, 2⟩
        1 "confirmed" 10).2.orders.map OrderRow.totalAmount
      = (⟨[⟨1, 1, 30, "pending", 9, 9⟩], [⟨1, 1, 1, 3, 10, "Widget"⟩], 2, 2⟩ :
          OrderDB).orders.map OrderRow.totalAmount ∧
    (updateOrderStatus ⟨[⟨1, 1, 30, "pending", 9, 9⟩], [⟨1, 1, 1, 3, 10, "Widget"⟩], 2, 2⟩
        1 "confirmed" 10).2.items
      = (⟨[⟨1, 1, 30, "pending", 9, 9⟩], [⟨1, 1, 1, 3, 10, "Widget"⟩], 2, 2⟩ :
          OrderDB).items ∧
    getOrderById ⟨fun _ => .ok ⟨"Alice"⟩, fun _ => .notFound⟩
        ⟨[⟨1, 1, 30, "pending", 9, 9⟩], [⟨1, 1, 1, 3, 10, "Widget"⟩], 2, 2⟩ 1
      = getOrderById ⟨fun _ => .ok ⟨"Alice"⟩, fun _ => .ok ⟨"Widget", 10, 5⟩⟩
        ⟨[⟨1, 1, 30, "pending", 9, 9⟩], [⟨1, 1, 1, 3, 10, "Widget"⟩], 2, 2⟩ 1 := by
  exact createOrder_snapshot_total
    ⟨fun _ => .ok ⟨"Alice"⟩, fun _ => .ok ⟨"Widget", 10, 5⟩⟩
    ⟨[], [], 1, 1⟩ ⟨1, [⟨1, 3⟩]⟩ 9
    ⟨1, 1, 30, "pending", 9, 9⟩ [⟨1, 1, 1, 3, 10, "Widget"⟩]
    ⟨[⟨1, 1, 30, "pending", 9, 9⟩], [⟨1, 1, 1, 3, 10, "Widget"⟩], 2, 2⟩
    [.http .GET .userSvc 1, .http .GET .productSvc 1, .txBegin, .insOrder,
      .insItem, .txCommit]
    1 "confirmed" 10 1 (fun _ => .notFound) (by decide)

/-- When every line item before `it` passes its product check and `it`'s
product is fetched with too little stock, the validation loop stops at
`it` with exactly the insufficient-stock error for that product. -/
theorem checkItems_first_insufficient (env : OrderEnv) (it : OrderItemReq)
    (p : ProductInfo) (post : List OrderItemReq)
    (hp : env.products it.productId = .ok p) (hlow : p.stock < it.quantity) :
    ∀ (pre : List OrderItemReq) (acc : List (Int × ProductInfo)),
      pre.all (sufficientStock env) = true →
      (checkItems env (pre ++ it :: post) acc).1
        = .fail400 (.insufficientStock p.name p.stock it.quantity)
  | [], acc, _ => by
    simp only [List.nil_append]
    unfold checkItems
    rw [hp]
    simp [hlow]
  | j :: pre', acc, hall => by
    simp only [List.cons_append]
    have hj : sufficientStock env j = true := by
      simp only [List.all_cons, Bool.and_eq_true] at hall
      exact hall.1
    have hall' : pre'.all (sufficientStock env) = true := by
      simp only [List.all_cons, Bool.and_eq_true] at hall
      exact hall.2
    unfold sufficientStock at hj
    unfold checkItems
    rcases hq : env.products j.productId with q | _ | _
    · rw [hq] at hj
      have hdec : decide (j.quantity ≤ q.stock) = true := hj
      have hle : j.quantity ≤ q.stock := by simpa using hdec
      have hge : ¬ (q.stock < j.quantity) := by omega
      have IH := checkItems_first_insufficient env it p post hp hlow pre'
        (upsertDetail acc j.productId ⟨q.name, q.price, q.stock⟩) hall'
      simpa [hge] using IH
    · rw [hq] at hj
      have hfb : (false : Bool) = true := hj
      exact absurd hfb (by simp)
    · rw [hq] at hj
      have hfb : (false : Bool) = true := hj
      exact absurd hfb (by simp)

/-- C4: when an order request (valid payload, existing user) reaches the
check of an item whose fetched product has less stock than the requested
quantity — the items before it all passing their checks — the handler
answers 400 with the insufficient-stock error carrying exactly that
product's name, its available stock and the requested quantity (as the
rendered message shows), and the database is untouched. -/
theorem createOrder_insufficient_stock
    (env : OrderEnv) (db : OrderDB) (body : OrderPayload) (now : Nat)
    (u : UserInfo) (pre post : List OrderItemReq) (it : OrderItemReq)
    (p : ProductInfo)
    (hv : validOrderPayload body = true)
    (hu : env.users body.userId = .ok u)
    (hsplit : body.items = pre ++ it :: post)
    (hpre : pre.all (sufficientStock env) = true)
    (hp : env.products it.productId = .ok p)
    (hlow : p.stock < it.quantity) :
    (createOrder env db body now).1
        = .badRequest (.insufficientStock p.name p.stock it.quantity) ∧
    (createOrder env db body now).1.status = 400 ∧
    (createOrder env db body now).2.1 = db ∧
    (OrderErr.insufficientStock p.name p.stock it.quantity).render
        = "Insufficient stock for product " ++ p.name ++ ". Available: "
          ++ toString p.stock ++ ", Requested: " ++ toString it.quantity := by
  have hfail : (checkItems env body.items []).1
      = .fail400 (.insufficientStock p.name p.stock it.quantity) := by
    rw [hsplit]
    exact checkItems_first_insufficient env it p post hp hlow pre [] hpre
  rcases hC : checkItems env body.items [] with ⟨out, tr2⟩
  rw [hC] at hfail
  dsimp only at hfail
  subst hfail
  refine ⟨?_, ?_, ?_, rfl⟩ <;>
    simp [createOrder, hv, hu, hC, OrderResp.status]

/-- C4 witness: ordering 10 Laptops when the fetched product reports
stock 5. -/
theorem createOrder_insufficient_stock_witness :
    (createOrder ⟨fun _ => .ok ⟨"Alice"⟩, fun _ => .ok ⟨"Laptop", 999, 5⟩⟩
        ⟨[], [], 1, 1⟩ ⟨1, [⟨1, 10⟩]⟩ 0).1
      = .badRequest (.insufficientStock "Laptop" 5 10) ∧
    (createOrder ⟨fun _ => .ok ⟨"Alice"⟩, fun _ => .ok ⟨"Laptop", 999, 5⟩⟩
        ⟨[], [], 1, 1⟩ ⟨1, [⟨1, 10⟩]⟩ 0).1.status = 400 ∧
    (createOrder ⟨fun _ => .ok ⟨"Alice"⟩, fun _ => .ok ⟨"Laptop", 999, 5⟩⟩
        ⟨[], [], 1, 1⟩ ⟨1, [⟨1, 10⟩]⟩ 0).2.1 = ⟨[], [], 1, 1⟩ ∧
    (OrderErr.insufficientStock "Laptop" 5 10).render
      = "Insufficient stock for product " ++ "Laptop" ++ ". Available: "
        ++ toString (5 : Int) ++ ", Requested: " ++ toString (10 : Int) := by
  exact createOrder_insufficient_stock
    ⟨fun _ => .ok ⟨"Alice"⟩, fun _ => .ok ⟨"Laptop", 999, 5⟩⟩
    ⟨[], [], 1, 1⟩ ⟨1, [⟨1, 10⟩]⟩ 0 ⟨"Alice"⟩ [] [] ⟨1, 10⟩ ⟨"Laptop", 999, 5⟩
    (by decide) rfl rfl rfl rfl (by decide)

/-- Serving any single create-order trace event leaves the product table
unchanged (the only product-service calls are GETs, and `getProduct` only
reads). -/
theorem applyEventToProducts_id (pdb : List Product) (e : Event) :
    applyEventToProducts pdb e = pdb := by
  rcases e with ⟨m, s, pid⟩ | _ | _ | _ | _ | _
  · rcases m <;> rcases s <;>
      simp only [applyEventToProducts] <;>
      unfold ProductSvc.getProduct <;>
      rcases h : pdb.find? (fun p => p.id == pid.toNat) with _ | p <;> simp [h]
  all_goals rfl

/-- Serving a whole trace leaves the product table unchanged. -/
theorem foldl_applyEventToProducts (l : List Event) :
    ∀ pdb : List Product, l.foldl applyEventToProducts pdb = pdb := by
  induction l with
  | nil => intro pdb; rfl
  | cons e rest ih =>
    intro pdb
    rw [List.foldl_cons, applyEventToProducts_id]
    exact ih pdb

/-- C6: order creation never modifies product state.  Every outbound HTTP
call in every create-order trace — successful or failed — is a GET (never
a mutating method), and replaying the trace's effect on any product table
through the product service's read handler leaves every row, hence every
stock value, unchanged. -/
theorem createOrder_never_writes_products (env : OrderEnv) (db : OrderDB)
    (body : OrderPayload) (now : Nat) (pdb : List Product) :
    (∀ e ∈ (createOrder env db body now).2.2, e.isHttpWrite = false) ∧
    (createOrder env db body now).2.2.foldl applyEventToProducts pdb = pdb := by
  refine ⟨?_, foldl_applyEventToProducts _ pdb⟩
  intro e he
  simp only [createOrder] at he
  repeat' split at he
  all_goals
    simp only [List.mem_cons, List.mem_append, List.mem_singleton,
      List.not_mem_nil, or_false, false_or] at he
  all_goals repeat' rcases he with he | he
  all_goals
    first
    | rfl
    | (subst he; rfl)
    | (have h2 := insertItems_events _ _ _ _ e he
       subst h2
       rfl)
    | (obtain ⟨pid, hpid⟩ := checkItems_events env body.items [] e he;
       subst hpid; rfl)
    | simp at he

/-- A trace with no HTTP call at all trivially has no HTTP call after a
BEGIN. -/
theorem noHttpAfterBegin_of_no_http (l : List Event)
    (h : ∀ e ∈ l, e.isHttp = false) : noHttpAfterBegin l = true := by
  induction l with
  | nil => rfl
  | cons e rest ih =>
    unfold noHttpAfterBegin
    split
    · rw [List.all_eq_true]
      intro x hx
      simp [h x (List.mem_cons_of_mem e hx)]
    · exact ih (fun x hx => h x (List.mem_cons_of_mem e hx))

/-- A trace made of a BEGIN-free prefix followed by an HTTP-free suffix
has no HTTP call after a BEGIN. -/
theorem noHttpAfterBegin_append (l1 l2 : List Event)
    (h1 : ∀ e ∈ l1, e ≠ .txBegin) (h2 : ∀ e ∈ l2, e.isHttp = false) :
    noHttpAfterBegin (l1 ++ l2) = true := by
  induction l1 with
  | nil => simpa using noHttpAfterBegin_of_no_http l2 h2
  | cons e rest ih =>
    simp only [List.cons_append]
    unfold noHttpAfterBegin
    split
    case isTrue heq => exact absurd heq (h1 e (by simp))
    case isFalse =>
      exact ih (fun x hx => h1 x (List.mem_cons_of_mem e hx))

/-- C7: in every execution of the create-order flow, all outbound HTTP
calls (the user lookup and every product lookup) happen before BEGIN is
issued on the pooled connection, and no HTTP call occurs between BEGIN
and COMMIT/ROLLBACK: once a BEGIN appears in the trace, no later event is
an outbound call. -/
theorem createOrder_http_before_transaction (env : OrderEnv) (db : OrderDB)
    (body : OrderPayload) (now : Nat) :
    noHttpAfterBegin (createOrder env db body now).2.2 = true := by
  have huser : (Event.http .GET .userSvc body.userId) ≠ Event.txBegin := by simp
  have hchk : ∀ e ∈ (checkItems env body.items []).2, e ≠ Event.txBegin := by
    intro e he
    obtain ⟨pid, hpid⟩ := checkItems_events env body.items [] e he
    subst hpid
    simp
  simp only [createOrder]
  split
  case isFalse => rfl
  case isTrue hv =>
    split
    case h_1 => rfl
    case h_2 => rfl
    case h_3 u hu =>
      split
      case h_1 =>
        dsimp only
        have := noHttpAfterBegin_append
          (Event.http .GET .userSvc body.userId :: (checkItems env body.items []).2) []
          (by
            intro x hx
            rcases List.mem_cons.mp hx with rfl | hx
            · exact huser
            · exact hchk x hx)
          (by simp)
        simpa using this
      case h_2 =>
        dsimp only
        have := noHttpAfterBegin_append
          (Event.http .GET .userSvc body.userId :: (checkItems env body.items []).2) []
          (by
            intro x hx
            rcases List.mem_cons.mp hx with rfl | hx
            · exact huser
            · exact hchk x hx)
          (by simp)
        simpa using this
      case h_3 details hC =>
        have hpre : ∀ x ∈ Event.http Method.GET Svc.userSvc body.userId ::
            (checkItems env body.items []).2, x ≠ Event.txBegin := by
          intro x hx
          rcases List.mem_cons.mp hx with rfl | hx
          · exact huser
          · exact hchk x hx
        split
        case h_1 =>
          dsimp only
          exact noHttpAfterBegin_append
            (Event.http Method.GET Svc.userSvc body.userId :: (checkItems env body.items []).2)
            [Event.txBegin, Event.insOrder, Event.txRollback]
            hpre (by intro x hx; fin_cases hx <;> rfl)
        case h_2 db1 orow hins =>
          split
          case h_1 hitems =>
            dsimp only
            rw [List.append_assoc, List.append_assoc]
            refine noHttpAfterBegin_append
              (Event.http Method.GET Svc.userSvc body.userId :: (checkItems env body.items []).2)
              ([Event.txBegin, Event.insOrder] ++ ((insertItems db1 orow.id details body.items).2
                ++ [Event.txRollback])) hpre ?_
            intro x hx
            rw [List.mem_append] at hx
            rcases hx with hx | hx
            · fin_cases hx <;> rfl
            · rw [List.mem_append] at hx
              rcases hx with hx | hx
              · have := insertItems_events _ _ _ _ x hx
                subst this
                rfl
              · fin_cases hx <;> rfl
          case h_2 db2 irows hitems =>
            dsimp only
            rw [List.append_assoc, List.append_assoc]
            refine noHttpAfterBegin_append
              (Event.http Method.GET Svc.userSvc body.userId :: (checkItems env body.items []).2)
              ([Event.txBegin, Event.insOrder] ++ ((insertItems db1 orow.id details body.items).2
                ++ [Event.txCommit])) hpre ?_
            intro x hx
            rw [List.mem_append] at hx
            rcases hx with hx | hx
            · fin_cases hx <;> rfl
            · rw [List.mem_append] at hx
              rcases hx with hx | hx
              · have := insertItems_events _ _ _ _ x hx
                subst this
                rfl
              · fin_cases hx <;> rfl
